import Mathlib

/-!
Verification development for the logust logging engine.

The definitions below are a shallow embedding of the Rust sources
(`src/level.rs`, `src/format.rs`, `src/sink.rs`, `src/handler.rs`,
`src/lib.rs`).  Machine integers are modelled as `Nat`/`Int`; `u32::MAX`
and `u64::MAX` appear explicitly where the code relies on them.  Strings
are modelled as `String`/`List Char`.  Fallible operations return
`Option`/`Except`.  Python-side opaque objects (filters, callbacks) are
modelled as functions into small result types.  Wall-clock timestamps are
modelled as epoch milliseconds (`Nat`); the chrono formatting of a
timestamp is kept symbolic where its exact text does not matter.
-/

set_option maxRecDepth 10000
set_option maxHeartbeats 1000000
set_option exponentiation.threshold 2048

namespace Logust

/-! ## Level registry (`src/level.rs`) -/

/-- The built-in level enum with its numeric discriminants. -/
inductive LogLevel where
  | trace | debug | info | success | warning | error | fail | critical
deriving DecidableEq, Repr

/-- Numeric severity of a built-in level (the Rust enum discriminant,
`level as u32`). -/
def LogLevel.toNo : LogLevel → Nat
  | .trace => 5
  | .debug => 10
  | .info => 20
  | .success => 25
  | .warning => 30
  | .error => 40
  | .fail => 45
  | .critical => 50

/-- `LogLevel::as_str`. -/
def LogLevel.asStr : LogLevel → String
  | .trace => "TRACE"
  | .debug => "DEBUG"
  | .info => "INFO"
  | .success => "SUCCESS"
  | .warning => "WARNING"
  | .error => "ERROR"
  | .fail => "FAIL"
  | .critical => "CRITICAL"

/-- `LevelInfo` from `level.rs`. -/
structure LevelInfo where
  name : String
  no : Nat
  color : String
  icon : Option String
deriving DecidableEq, Repr

/-- ASCII uppercasing of one character (`to_ascii_uppercase`). -/
def asciiUpper (c : Char) : Char :=
  if 'a' ≤ c ∧ c ≤ 'z' then Char.ofNat (c.toNat - 32) else c

/-- ASCII lowercasing of one character (`to_ascii_lowercase` /
`to_lowercase` restricted to ASCII, which is all the rotation keywords
need). -/
def asciiLower (c : Char) : Char :=
  if 'A' ≤ c ∧ c ≤ 'Z' then Char.ofNat (c.toNat + 32) else c

/-- Uppercase a string character-wise (faithful to Rust for ASCII input). -/
def upperStr (s : String) : String := ⟨s.data.map asciiUpper⟩

/-- The built-in branch of `get_level_info` (after uppercasing). -/
def builtinLevelInfo (upper : String) : Option LevelInfo :=
  if upper = "TRACE" then some ⟨"TRACE", 5, "cyan", none⟩
  else if upper = "DEBUG" then some ⟨"DEBUG", 10, "blue", none⟩
  else if upper = "INFO" then some ⟨"INFO", 20, "green", none⟩
  else if upper = "SUCCESS" then some ⟨"SUCCESS", 25, "bright_green", none⟩
  else if upper = "WARNING" then some ⟨"WARNING", 30, "yellow", none⟩
  else if upper = "ERROR" then some ⟨"ERROR", 40, "red", none⟩
  else if upper = "FAIL" then some ⟨"FAIL", 45, "magenta", none⟩
  else if upper = "CRITICAL" then some ⟨"CRITICAL", 50, "bright_red", none⟩
  else none

/-- The process-wide custom level registry (`LEVEL_REGISTRY` keyed by
uppercased name, `LEVEL_NO_REGISTRY` keyed by severity). -/
structure Registry where
  byName : List (String × LevelInfo)
  byNo : List (Nat × String)
deriving Repr

/-- Association-list lookup (first match wins, as in `HashMap::get` given
unique keys). -/
def assocFind {α : Type} : List (String × α) → String → Option α
  | [], _ => none
  | (k1, v1) :: rest, k => if k1 = k then some v1 else assocFind rest k

/-- Numeric association lookup. -/
def assocFindNat {α : Type} : List (Nat × α) → Nat → Option α
  | [], _ => none
  | (k1, v1) :: rest, k => if k1 = k then some v1 else assocFindNat rest k

/-- `get_level_info`: custom registry first, then built-ins. -/
def get_level_info (reg : Registry) (name : String) : Option LevelInfo :=
  let upper := upperStr name
  match assocFind reg.byName upper with
  | some info => some info
  | none => builtinLevelInfo upper

/-- `get_level_by_no`: numeric registry first, then built-in table. -/
def get_level_by_no (reg : Registry) (no : Nat) : Option LevelInfo :=
  match assocFindNat reg.byNo no with
  | some name => assocFind reg.byName name
  | none =>
    if no = 5 then get_level_info reg "TRACE"
    else if no = 10 then get_level_info reg "DEBUG"
    else if no = 20 then get_level_info reg "INFO"
    else if no = 25 then get_level_info reg "SUCCESS"
    else if no = 30 then get_level_info reg "WARNING"
    else if no = 40 then get_level_info reg "ERROR"
    else if no = 45 then get_level_info reg "FAIL"
    else if no = 50 then get_level_info reg "CRITICAL"
    else none

/-! ## Python dict model

`build_record_dict` and `bind` manipulate Python dicts / HashMaps.  A
Python dict is an insertion-ordered map; `set_item` updates an existing
key in place or appends a new one. -/

/-- `dict[k] = v` (upsert, preserving insertion order). -/
def dictSet {α : Type} : List (String × α) → String → α → List (String × α)
  | [], k, v => [(k, v)]
  | (k1, v1) :: rest, k, v =>
    if k1 = k then (k, v) :: rest else (k1, v1) :: dictSet rest k v

/-- `dict.get(k)`. -/
def dictLookup {α : Type} : List (String × α) → String → Option α
  | [], _ => none
  | (k1, v1) :: rest, k => if k1 = k then some v1 else dictLookup rest k

/-- Insert every pair of `kvs` in order (models a `for` loop of
`set_item`/`insert` calls). -/
def dictSetAll {α : Type} (d : List (String × α)) (kvs : List (String × α)) :
    List (String × α) :=
  kvs.foldl (fun acc kv => dictSet acc kv.1 kv.2) d

/-- The lookup a sequence of upserts produces: the value of the last
occurrence of the key among the inserted pairs, else the fallback. -/
def lastWins {α : Type} (kvs : List (String × α)) (k : String)
    (fallback : Option α) : Option α :=
  match kvs.reverse.find? (fun p => p.1 = k) with
  | some p => some p.2
  | none => fallback

/-- Values stored in a record view: strings, numbers, a nested dict, or
the (symbolic) RFC3339 rendering of a timestamp. -/
inductive PyVal where
  | str (s : String)
  | num (n : Nat)
  | dict (d : List (String × PyVal))
  | timeRfc3339 (millis : Nat)

/-! ## Format engine (`src/format.rs`) -/

/-- Left-pad a numeral to width 2 (Rust `{:02}`). -/
def pad2 (n : Nat) : String :=
  if n < 10 then "0" ++ toString n else toString n

/-- Left-pad a numeral to width 3 (Rust `{:03}`). -/
def pad3 (n : Nat) : String :=
  if n < 10 then "00" ++ toString n
  else if n < 100 then "0" ++ toString n
  else toString n

/-- `format_elapsed`: `HH:MM:SS.mmm` since logger start, negative
durations clamped to zero (Nat subtraction clamps exactly like the
`max(0)` in the source). -/
def format_elapsed (startMillis nowMillis : Nat) : String :=
  let totalMillis := nowMillis - startMillis
  let millis := totalMillis % 1000
  let totalSecs := totalMillis / 1000
  let hours := totalSecs / 3600
  let minutes := (totalSecs % 3600) / 60
  let seconds := totalSecs % 60
  pad2 hours ++ ":" ++ pad2 minutes ++ ":" ++ pad2 seconds ++ "." ++ pad3 millis

/-- `FormatToken` (static text kept as a character list). -/
inductive FormatToken where
  | static (s : List Char)
  | time
  | level
  | levelWidth (w : Nat)
  | message
  | extra (key : List Char)
  | name
  | function
  | line
  | elapsed
  | thread
  | process
  | file
  | mod
deriving DecidableEq, Repr

/-- `TokenRequirements`. -/
structure TokenRequirements where
  needs_caller : Bool := false
  needs_thread : Bool := false
  needs_process : Bool := false
  needs_time : Bool := false
  needs_level : Bool := false
  needs_message : Bool := false
  needs_elapsed : Bool := false
deriving DecidableEq, Repr

/-- `TokenRequirements::merge` (field-wise OR). -/
def TokenRequirements.merge (a b : TokenRequirements) : TokenRequirements :=
  ⟨a.needs_caller || b.needs_caller, a.needs_thread || b.needs_thread,
   a.needs_process || b.needs_process, a.needs_time || b.needs_time,
   a.needs_level || b.needs_level, a.needs_message || b.needs_message,
   a.needs_elapsed || b.needs_elapsed⟩

/-- `TokenRequirements::all`. -/
def TokenRequirements.all : TokenRequirements :=
  ⟨true, true, true, true, true, true, true⟩

/-- `compute_requirements`: walk the tokens and set the needed flags. -/
def compute_requirements (tokens : List FormatToken) : TokenRequirements :=
  tokens.foldl
    (fun reqs t =>
      match t with
      | .name | .mod | .function | .line | .file => { reqs with needs_caller := true }
      | .thread => { reqs with needs_thread := true }
      | .process => { reqs with needs_process := true }
      | .time => { reqs with needs_time := true }
      | .level | .levelWidth _ => { reqs with needs_level := true }
      | .message => { reqs with needs_message := true }
      | .elapsed => { reqs with needs_elapsed := true }
      | _ => reqs)
    {}

/-- Result of scanning a placeholder body: the characters before the next
closing brace, the remainder after it, and whether a closing brace was
found at all. -/
structure SpanRes where
  ph : List Char
  rest : List Char
  found : Bool
deriving DecidableEq, Repr

/-- Scan up to (and consuming) the next closing brace, as the
placeholder loop in `parse_template` does. -/
def spanPlaceholder : List Char → SpanRes
  | [] => ⟨[], [], false⟩
  | c :: rest =>
    if c = '\x7d' then ⟨[], rest, true⟩
    else
      let r := spanPlaceholder rest
      ⟨c :: r.ph, r.rest, r.found⟩

/-- Rust `usize::from_str`: optional leading `+`, then one or more ASCII
digits, value at most `usize::MAX` (2^64 − 1 on 64-bit targets). -/
def parseUsize (cs : List Char) : Option Nat :=
  let ds := match cs with
    | '+' :: rest => rest
    | other => other
  if ds ≠ [] ∧ ds.all Char.isDigit then
    let n := ds.foldl (fun acc c => 10 * acc + (c.toNat - 48)) 0
    if n < 2 ^ 64 then some n else none
  else none

/-- Classify a placeholder body exactly as the `if` chain in
`parse_template` does; `none` means the placeholder is unrecognized. -/
def classifyPlaceholder (ph : List Char) : Option FormatToken :=
  if ph = "time".data then some .time
  else if ph = "message".data then some .message
  else if ph = "level".data then some .level
  else if ph = "name".data then some .name
  else if ph = "function".data then some .function
  else if ph = "line".data then some .line
  else if ph = "elapsed".data then some .elapsed
  else if ph = "thread".data then some .thread
  else if ph = "process".data then some .process
  else if ph = "file".data then some .file
  else if ph = "module".data then some .mod
  else if "level:<".data.isPrefixOf ph then
    match parseUsize (ph.drop 7) with
    | some w => some (.levelWidth w)
    | none => none
  else if "extra[".data.isPrefixOf ph ∧ ph.getLast? = some ']' then
    some (.extra ((ph.drop 6).dropLast))
  else none

/-- The scanning loop of `parse_template`, fuelled so that it is a
structural recursion (the fuel strictly exceeds the input length, so it
never runs out).  `buf` is the pending `static_buf`. -/
def parseTemplateF : Nat → List Char → List Char → List FormatToken
  | 0, _, _ => []
  | _ + 1, [], buf => if buf.isEmpty then [] else [.static buf]
  | f + 1, c :: rest, buf =>
    if c = '\x7b' then
      let r := spanPlaceholder rest
      let flushed : List FormatToken := if buf.isEmpty then [] else [.static buf]
      match classifyPlaceholder r.ph with
      | some tok => flushed ++ tok :: parseTemplateF f r.rest []
      | none => flushed ++ parseTemplateF f r.rest (('\x7b' :: r.ph) ++ ['\x7d'])
    else
      parseTemplateF f rest (buf ++ [c])

/-- `parse_template`. -/
def parse_template (s : String) : List FormatToken :=
  parseTemplateF (s.data.length + 1) s.data []

/-- Concatenate the `Static` tokens of a token list, in order. -/
def staticConcat : List FormatToken → List Char
  | [] => []
  | .static s :: rest => s ++ staticConcat rest
  | _ :: rest => staticConcat rest

/-- Modelled from the spec (claim C6): the static spans of a template are
the text outside placeholders plus every unrecognized placeholder
re-emitted verbatim (with exactly the braces it has in the template); a
trailing `\x7b` with no matching `\x7d` is not a placeholder and is kept
verbatim. -/
def specStaticSpansF : Nat → List Char → List Char
  | 0, _ => []
  | _ + 1, [] => []
  | f + 1, c :: rest =>
    if c = '\x7b' then
      let r := spanPlaceholder rest
      if r.found then
        (if (classifyPlaceholder r.ph).isSome then []
         else '\x7b' :: (r.ph ++ ['\x7d'])) ++ specStaticSpansF f r.rest
      else c :: rest
    else c :: specStaticSpansF f rest

/-- Static spans of a template, per the spec's description. -/
def specStaticSpans (s : String) : List Char :=
  specStaticSpansF (s.data.length + 1) s.data

/-- Every placeholder opened by `\x7b` finds a closing `\x7d`. -/
def wellBracedF : Nat → List Char → Bool
  | 0, _ => false
  | _ + 1, [] => true
  | f + 1, c :: rest =>
    if c = '\x7b' then
      let r := spanPlaceholder rest
      r.found && wellBracedF f r.rest
    else wellBracedF f rest

/-- A template with no unterminated placeholder. -/
def wellBraced (s : String) : Bool :=
  wellBracedF (s.data.length + 1) s.data

/-- `FormatConfig`, reduced to the fields the claims touch: the parsed
tokens, the serialize flag and the derived requirements. -/
structure FormatConfig where
  tokens : List FormatToken
  serialize : Bool
deriving DecidableEq, Repr

/-- `FormatConfig::requirements`. -/
def FormatConfig.requirements (f : FormatConfig) : TokenRequirements :=
  compute_requirements f.tokens

/-- `DEFAULT_FORMAT_TEMPLATE`. -/
def defaultFormatTemplate : String :=
  "\x7btime\x7d | \x7blevel:<8\x7d | \x7bname\x7d:\x7bfunction\x7d:\x7bline\x7d - \x7bmessage\x7d"

/-- `FormatConfig::new` (the fields the claims touch). -/
def FormatConfig.new (template : Option String) (serialize : Bool) : FormatConfig :=
  ⟨parse_template (template.getD defaultFormatTemplate), serialize⟩

/-! ## Records and handlers (`src/handler.rs`) -/

/-- `CallerInfo`. -/
structure CallerInfo where
  name : String
  function : String
  line : Nat
  file : String
deriving DecidableEq, Repr

/-- `ThreadInfo`. -/
structure ThreadInfo where
  name : String
  id : Nat
deriving DecidableEq, Repr

/-- `ProcessInfo`. -/
structure ProcessInfo where
  name : String
  id : Nat
deriving DecidableEq, Repr

/-- `LogRecord`.  The timestamp is epoch milliseconds. -/
structure LogRecord where
  timestamp : Nat
  level : LogLevel
  level_info : Option LevelInfo
  message : String
  extra : List (String × String)
  exception : Option String
  caller : CallerInfo
  thread : ThreadInfo
  process : ProcessInfo

/-- `LogRecord::level_no`. -/
def LogRecord.level_no (r : LogRecord) : Nat :=
  match r.level_info with
  | some info => info.no
  | none => r.level.toNo

/-- `LogRecord::level_name`. -/
def LogRecord.level_name (r : LogRecord) : String :=
  match r.level_info with
  | some info => info.name
  | none => r.level.asStr

/-- A record view handed to Python filters and callbacks. -/
abbrev RecordDict := List (String × PyVal)

/-- Outcome of calling a user filter: a truthy value, a falsy value, or a
raised exception. -/
inductive FilterRes where
  | truthy | falsy | err
deriving DecidableEq, Repr

/-- An opaque user filter predicate. -/
abbrev LogFilter := RecordDict → FilterRes

/-- An opaque user callback; the `Bool` says whether the call raised
(its result is discarded by the dispatcher either way). -/
abbrev LogCallback := RecordDict → Bool

/-! ## File sink (`src/sink.rs`) -/

/-- `Rotation`. -/
inductive Rotation where
  | never | daily | hourly
deriving DecidableEq, Repr

/-- `FileSinkConfig`. -/
structure FileSinkConfig where
  path : String
  rotation : Rotation
  max_size : Option Nat
  retention_days : Option Nat
  retention_count : Option Nat
  compression : Bool
  enqueue : Bool
deriving Repr

/-- The sink state the claims consult: its configuration, the atomic
`current_size`, and the cached rotation boundary (epoch millis, `0`
meaning none). -/
structure FileSinkSt where
  config : FileSinkConfig
  current_size : Nat
  next_rotation_boundary : Int
deriving Repr

/-- The file system, as the set of currently existing paths. -/
abbrev FileSys := List String

/-- Split a filename at its last dot into `(file_stem, extension)`,
as `Path::file_stem` / `Path::extension` do for plain filenames. -/
def lastDotSplit (cs : List Char) : Option (List Char × List Char) :=
  if cs.contains '.' then
    some (((cs.reverse.dropWhile (· ≠ '.')).tail).reverse,
          (cs.reverse.takeWhile (· ≠ '.')).reverse)
  else none

/-- `generate_rotated_path`: `"<stem>.<timestamp>.<ext>"`.  The chrono
`%Y-%m-%d_%H-%M-%S` rendering of the rotation instant is modelled
symbolically by the epoch-milli numeral; its exact text is irrelevant to
the claims. -/
def generate_rotated_path (path : String) (nowMillis : Nat) : String :=
  let (stem, ext) := match lastDotSplit path.data with
    | some (s, e) => (s, e)
    | none => (path.data, "log".data)
  ⟨stem ++ ('.' :: (toString nowMillis).data) ++ ('.' :: ext)⟩

/-- `calculate_next_rotation_boundary`.  chrono calendar arithmetic is
external to the repository; the model keeps `Never ↦ 0` exactly and
returns a strictly future boundary for the time rotations (the claims
only exercise `Never`). -/
def calculate_next_rotation_boundary (rotation : Rotation) (nowMillis : Int) : Int :=
  match rotation with
  | .never => 0
  | .daily => nowMillis + 86400000
  | .hourly => nowMillis + 3600000

/-- `check_rotation_needed`: size-based or time-based. -/
def check_rotation_needed (s : FileSinkSt) (nowMillis : Int) : Bool :=
  (match s.config.max_size with
   | some maxSize => decide (maxSize ≤ s.current_size)
   | none => false)
  || (if 0 < s.next_rotation_boundary then decide (s.next_rotation_boundary ≤ nowMillis)
      else false)

/-- `apply_retention` deletes old rotated files (never the file at the
configured path — the enumeration explicitly excludes the current
filename — and it never creates a file).  Which rotated files get pruned
depends on modification times; no claim depends on that, so the model
keeps the file set. -/
def apply_retention (fs : FileSys) (_s : FileSinkSt) : FileSys := fs

/-- `FileSink::rotate`: flush, rename the current file to the rotated
name (if it exists), optionally gzip the rotated file (replacing it),
apply retention, reset `current_size`, recompute the boundary.  No file
is created at the configured path. -/
def FileSink.rotate (fs : FileSys) (s : FileSinkSt) (nowMillis : Nat) :
    FileSys × FileSinkSt :=
  let rotated := generate_rotated_path s.config.path nowMillis
  let fs1 :=
    if s.config.path ∈ fs then
      let renamed := (fs.erase s.config.path) ++ [rotated]
      if s.config.compression then (renamed.erase rotated) ++ [rotated ++ ".gz"]
      else renamed
    else fs
  let fs2 := apply_retention fs1 s
  let s2 : FileSinkSt :=
    { s with
      current_size := 0,
      next_rotation_boundary :=
        calculate_next_rotation_boundary s.config.rotation nowMillis }
  (fs2, s2)

/-- `FileSink::maybe_rotate`. -/
def FileSink.maybe_rotate (fs : FileSys) (s : FileSinkSt) (nowMillis : Nat) :
    FileSys × FileSinkSt :=
  if s.config.rotation = .never ∧ s.config.max_size = none then (fs, s)
  else if check_rotation_needed s nowMillis then FileSink.rotate fs s nowMillis
  else (fs, s)

/-- `FileSink::write` / `write_owned`: maybe rotate, then write the line
through the already-open descriptor (sync) or enqueue it (async) — which
never creates a file at the configured path — and add
`message.len() + 1` to `current_size`. -/
def FileSink.write (fs : FileSys) (s : FileSinkSt) (nowMillis : Nat) (msgLen : Nat) :
    FileSys × FileSinkSt :=
  let (fs1, s1) := FileSink.maybe_rotate fs s nowMillis
  (fs1, { s1 with current_size := s1.current_size + (msgLen + 1) })

/-! ### Size and rotation string parsing (`parse_size`, `parse_rotation`)

`parse_size` goes through `f64`.  Every multiplier is a power of two, so
the only inexact step is the decimal-string-to-double conversion, which
is modelled exactly: an unnormalized fraction type carries exact rational
values and `flPos` performs IEEE-754 round-to-nearest-even onto the
binary64 grid (overflowing to infinity).  `as u64` saturation is modelled
explicitly. -/

/-- An unnormalized nonnegative-denominator fraction (exact rational
arithmetic without gcd normalization). -/
structure Frac where
  num : Int
  den : Nat
deriving DecidableEq, Repr

/-- Fraction product. -/
def Frac.mul (a b : Frac) : Frac := ⟨a.num * b.num, a.den * b.den⟩

/-- Fraction difference. -/
def Frac.sub (a b : Frac) : Frac := ⟨a.num * b.den - b.num * a.den, a.den * b.den⟩

/-- `a ≤ b` on fractions with positive denominators. -/
def Frac.le (a b : Frac) : Bool := decide (a.num * b.den ≤ b.num * a.den)

/-- `a < b` on fractions with positive denominators. -/
def Frac.lt (a b : Frac) : Bool := decide (a.num * b.den < b.num * a.den)

/-- Floor of a fraction (positive denominator). -/
def Frac.floor (a : Frac) : Int := Int.fdiv a.num a.den

/-- `2^k` as a fraction, for `k` of either sign. -/
def fpow2 (k : Int) : Frac :=
  if 0 ≤ k then ⟨((2 ^ k.toNat : Nat) : Int), 1⟩ else ⟨1, 2 ^ (-k).toNat⟩

/-- Fuelled search for the binade exponent `e` with `2^e ≤ q < 2^(e+1)`,
for `q ≥ 1`. -/
def findExpUp : Nat → Frac → Int
  | 0, _ => 0
  | f + 1, q => if Frac.lt q ⟨2, 1⟩ then 0 else findExpUp f ⟨q.num, 2 * q.den⟩ + 1

/-- Fuelled binade search for `0 < q < 1` (negative exponent). -/
def findExpDown : Nat → Frac → Int
  | 0, _ => 0
  | f + 1, q => if Frac.le ⟨1, 1⟩ q then 0 else findExpDown f ⟨2 * q.num, q.den⟩ - 1

/-- A parsed `f64` value: finite (held exactly) or positive infinity.
NaN and negative values cannot arise from digit/dot-only input. -/
inductive FVal where
  | finite (q : Frac)
  | inf
deriving DecidableEq, Repr

/-- IEEE-754 binary64 round-to-nearest-even of a nonnegative exact
rational: find the binade, scale onto the 53-bit grid (fixed scale
`2^-1074` below the normal range), round half-to-even, overflow to
infinity at `2^1024`. -/
def flPos (fuel : Nat) (q : Frac) : FVal :=
  if q.num ≤ 0 then .finite ⟨0, 1⟩
  else
    let e : Int := if Frac.le ⟨1, 1⟩ q then findExpUp fuel q else findExpDown fuel q
    let scale : Int := if e < -1022 then 1074 else 52 - e
    let val : Frac := Frac.mul q (fpow2 scale)
    let n : Int := val.floor
    let frac : Frac := Frac.sub val ⟨n * val.den, val.den⟩
    let m : Int :=
      if Frac.lt frac ⟨1, 2⟩ then n
      else if Frac.lt ⟨1, 2⟩ frac then n + 1
      else if n % 2 = 0 then n else n + 1
    let v : Frac := Frac.mul ⟨m, 1⟩ (fpow2 (-scale))
    if Frac.le (fpow2 1024) v then .inf else .finite v

/-- Numeric value of a digit string. -/
def natOfDigits (ds : List Char) : Nat :=
  ds.foldl (fun acc c => 10 * acc + (c.toNat - 48)) 0

/-- Exact rational value of a digit/dot string (assumed valid). -/
def decimalFrac (cs : List Char) : Frac :=
  let intPart := cs.takeWhile (· ≠ '.')
  let rest := cs.dropWhile (· ≠ '.')
  let fracPart := rest.tail
  ⟨natOfDigits (intPart ++ fracPart), 10 ^ fracPart.length⟩

/-- Rust `f64::from_str` restricted to digit/dot-only input: valid iff it
has at least one digit and at most one dot; the value is the exact
decimal rounded to binary64 (overflowing to infinity). -/
def rustParseF64 (cs : List Char) : Option FVal :=
  if cs.any Char.isDigit ∧ cs.count '.' ≤ 1 then
    some (flPos (4 * cs.length + 64) (decimalFrac cs))
  else none

/-- `u64::MAX`. -/
def u64Max : Nat := 2 ^ 64 - 1

/-- Rust `as u64` on an `f64`: truncate toward zero, saturating at the
`u64` range (NaN cannot arise here). -/
def fvalToU64 : FVal → Nat
  | .inf => u64Max
  | .finite q => if q.num ≤ 0 then 0 else min q.floor.toNat u64Max

/-- Multiply a parsed float by a power-of-two multiplier (exact in `f64`
up to the clamping performed later). -/
def FVal.mulNat : FVal → Nat → FVal
  | .inf, _ => .inf
  | .finite q, m => .finite ⟨q.num * m, q.den⟩

/-- Whitespace for Rust's `str::trim` (the ASCII White_Space characters;
the non-ASCII ones never occur in the claims' inputs). -/
def isRustWS (c : Char) : Bool :=
  c = ' ' || c = '\t' || c = '\n' || c = '\r' || c = '\x0b' || c = '\x0c'

/-- `str::trim`. -/
def rustTrim (cs : List Char) : List Char :=
  ((cs.dropWhile isRustWS).reverse.dropWhile isRustWS).reverse

/-- The multiplier table of `parse_size`. -/
def unitMultiplier (unit : String) : Option Nat :=
  if unit = "" ∨ unit = "B" then some 1
  else if unit = "K" ∨ unit = "KB" then some 1024
  else if unit = "M" ∨ unit = "MB" then some (1024 ^ 2)
  else if unit = "G" ∨ unit = "GB" then some (1024 ^ 3)
  else if unit = "T" ∨ unit = "TB" then some (1024 ^ 4)
  else none

/-- `parse_size`: trim and uppercase, partition characters into
digits/dots versus the rest, parse the numeric part as `f64`, look the
trimmed unit up, and convert the product with `as u64`. -/
def parse_size (s : String) : Option Nat :=
  let t := (rustTrim s.data).map asciiUpper
  let parts := t.partition fun c => c.isDigit || c = '.'
  match rustParseF64 (rustTrim parts.1) with
  | none => none
  | some fv =>
    match unitMultiplier ⟨rustTrim parts.2⟩ with
    | none => none
    | some m => some (fvalToU64 (fv.mulNat m))

/-- `parse_rotation`. -/
def parse_rotation (s : String) : Rotation × Option Nat :=
  let t : String := ⟨(rustTrim s.data).map asciiLower⟩
  if t = "daily" ∨ t = "1 day" ∨ t = "1day" then (.daily, none)
  else if t = "hourly" ∨ t = "1 hour" ∨ t = "1hour" then (.hourly, none)
  else
    match parse_size t with
    | some size => (.never, some size)
    | none => (.never, none)

/-- `parse_retention`: a string containing "day" with digits gives
retention days; a bare integer gives a retention count. -/
def parse_retention (s : String) : Option Nat × Option Nat :=
  let t := (rustTrim s.data).map asciiLower
  let hasDay := t.tails.any ("day".data.isPrefixOf ·)
  if hasDay ∧ (t.filter Char.isDigit) ≠ [] ∧ natOfDigits (t.filter Char.isDigit) < 2 ^ 32 then
    (some (natOfDigits (t.filter Char.isDigit)), none)
  else if t ≠ [] ∧ t.all Char.isDigit ∧ natOfDigits t < 2 ^ 32 then
    (none, some (natOfDigits t))
  else (none, none)

/-! ## Logger (`src/lib.rs`)

An `Arc<T>` (or a shared `RwLock`/atomic) is modelled as a value tagged
with a reference identity; mutating through the shared handle keeps the
tag, `Arc::clone` copies tag and value, and a fresh allocation gets a
fresh tag. -/

/-- A reference-counted shared cell. -/
structure Arc (α : Type) where
  ref : Nat
  val : α

/-- `ConsoleHandler`. -/
structure ConsoleHandler where
  level : LogLevel
  format : FormatConfig
  colorize : Bool
  use_stderr : Bool

/-- `FileHandler`. -/
structure FileHandler where
  sink : FileSinkSt
  level : LogLevel
  format : FormatConfig

/-- `HandlerType`. -/
inductive HandlerType where
  | console (h : ConsoleHandler)
  | file (h : FileHandler)

/-- `HandlerType::level`. -/
def HandlerType.level : HandlerType → LogLevel
  | .console h => h.level
  | .file h => h.level

/-- `HandlerType::requirements`. -/
def HandlerType.requirements : HandlerType → TokenRequirements
  | .console h => h.format.requirements
  | .file h => h.format.requirements

/-- `HandlerEntry`. -/
structure HandlerEntry where
  id : Nat
  handler : HandlerType
  filter : Option LogFilter

/-- `CallbackEntry`. -/
structure CallbackEntry where
  id : Nat
  callback : LogCallback
  level : LogLevel

/-- `PyLogger`. -/
structure PyLogger where
  handlers : Arc (List HandlerEntry)
  context : Arc (List (String × String))
  callbacks : Arc (List CallbackEntry)
  cached_min_level : Arc Nat
  cached_requirements : Arc TokenRequirements
  cached_handler_requirements : Arc TokenRequirements
  cached_has_filters : Arc Bool

/-- `u32::MAX`. -/
def u32Max : Nat := 2 ^ 32 - 1

/-- Iterator `min().unwrap_or(d)` over a list of severities (every
severity is far below `u32::MAX`, so folding from the default is the
same value). -/
def listMinD (l : List Nat) (d : Nat) : Nat := l.foldr min d

/-- `update_min_level_cache`. -/
def update_min_level_cache (L : PyLogger) : PyLogger :=
  let min_handler := listMinD (L.handlers.val.map fun e => e.handler.level.toNo) u32Max
  let min_callback := listMinD (L.callbacks.val.map fun e => e.level.toNo) u32Max
  { L with cached_min_level := ⟨L.cached_min_level.ref, min min_handler min_callback⟩ }

/-- `update_requirements_cache`. -/
def update_requirements_cache (L : PyLogger) : PyLogger :=
  let handler_only :=
    L.handlers.val.foldl (fun acc e => acc.merge e.handler.requirements) {}
  let has_filters := L.handlers.val.any fun e => e.filter.isSome
  let combined :=
    if has_filters then TokenRequirements.all
    else if ¬L.callbacks.val.isEmpty then TokenRequirements.all
    else handler_only
  { L with
    cached_handler_requirements := ⟨L.cached_handler_requirements.ref, handler_only⟩,
    cached_has_filters := ⟨L.cached_has_filters.ref, has_filters⟩,
    cached_requirements := ⟨L.cached_requirements.ref, combined⟩ }

/-- `ConsoleHandler::new`. -/
def ConsoleHandler.new (level : LogLevel) : ConsoleHandler :=
  ⟨level, FormatConfig.new none false, true, false⟩

/-- `PyLogger::new`: one stdout console handler at the supplied level
(default `Debug`), caches recomputed.  `id` is the value drawn from the
global handler-id counter; the `Arc`s are fresh allocations. -/
def PyLogger.new (id : Nat) (level : Option LogLevel) : PyLogger :=
  let base : PyLogger :=
    { handlers := ⟨6 * id, [⟨id, .console (ConsoleHandler.new (level.getD .debug)), none⟩]⟩,
      context := ⟨0, []⟩,
      callbacks := ⟨6 * id + 1, []⟩,
      cached_min_level := ⟨6 * id + 2, u32Max⟩,
      cached_requirements := ⟨6 * id + 3, {}⟩,
      cached_handler_requirements := ⟨6 * id + 4, {}⟩,
      cached_has_filters := ⟨6 * id + 5, false⟩ }
  update_requirements_cache (update_min_level_cache base)

/-- `FileSink::new` followed by the config assembly in `PyLogger::add`:
parse rotation and retention, build the config, initialize
`current_size` from the length of a pre-existing file at the path
(`existingSize`), compute the initial boundary. -/
def mkFileSink (path : String) (rotation retention : Option String)
    (compression enqueue : Option Bool) (existingSize : Nat) (nowMillis : Int) :
    FileSinkSt :=
  let (time_rotation, max_size) := (rotation.map parse_rotation).getD (.never, none)
  let (retention_days, retention_count) := (retention.map parse_retention).getD (none, none)
  let config : FileSinkConfig :=
    ⟨path, time_rotation, max_size, retention_days, retention_count,
     compression.getD false, enqueue.getD false⟩
  { config := config,
    current_size := existingSize,
    next_rotation_boundary := calculate_next_rotation_boundary time_rotation nowMillis }

/-- `PyLogger::add` (on sink-construction success). -/
def PyLogger.add (L : PyLogger) (id : Nat) (path : String)
    (level : Option LogLevel) (format : Option String)
    (rotation retention : Option String) (compression serialize : Option Bool)
    (filter : Option LogFilter) (enqueue : Option Bool)
    (existingSize : Nat) (nowMillis : Int) : PyLogger :=
  let lv := level.getD .debug
  let ser := serialize.getD false
  let format_config := FormatConfig.new format ser
  let sink := mkFileSink path rotation retention compression enqueue existingSize nowMillis
  let entry : HandlerEntry := ⟨id, .file ⟨sink, lv, format_config⟩, filter⟩
  update_requirements_cache (update_min_level_cache
    { L with handlers := ⟨L.handlers.ref, L.handlers.val ++ [entry]⟩ })

/-- `PyLogger::add_console`; rejects streams other than
`"stdout"`/`"stderr"` with a value error before any state change. -/
def PyLogger.add_console (L : PyLogger) (id : Nat) (stream : String)
    (level : Option LogLevel) (format : Option String) (serialize : Option Bool)
    (filter : Option LogFilter) (colorize : Option Bool) : Except String PyLogger :=
  let lv := level.getD .debug
  let ser := serialize.getD false
  let col := colorize.getD (!ser)
  let format_config := FormatConfig.new format ser
  if stream ≠ "stdout" ∧ stream ≠ "stderr" then
    .error "stream must be stdout or stderr"
  else
    let use_stderr := stream = "stderr"
    let entry : HandlerEntry := ⟨id, .console ⟨lv, format_config, col, use_stderr⟩, filter⟩
    .ok (update_requirements_cache (update_min_level_cache
      { L with handlers := ⟨L.handlers.ref, L.handlers.val ++ [entry]⟩ }))

/-- Remove the first entry with the given id (`Vec::remove` at the found
position). -/
def removeById (l : List HandlerEntry) (id : Nat) : List HandlerEntry :=
  match l with
  | [] => []
  | e :: rest => if e.id = id then rest else e :: removeById rest id

/-- `PyLogger::remove`. -/
def PyLogger.remove (L : PyLogger) (handler_id : Option Nat) : PyLogger :=
  let newHandlers :=
    match handler_id with
    | some id => removeById L.handlers.val id
    | none => []
  update_requirements_cache (update_min_level_cache
    { L with handlers := ⟨L.handlers.ref, newHandlers⟩ })

/-- `PyLogger::bind`: `None` or an empty dict shares the parent's context
`Arc`; a non-empty dict clones the mapping, overlays the new pairs and
allocates a fresh `Arc` (`freshRef`).  All other fields are `Arc::clone`s. -/
def PyLogger.bind (L : PyLogger) (freshRef : Nat)
    (kwargs : Option (List (String × String))) : PyLogger :=
  let new_context : Arc (List (String × String)) :=
    match kwargs with
    | none => L.context
    | some [] => L.context
    | some kvs => ⟨freshRef, dictSetAll L.context.val kvs⟩
  { handlers := L.handlers,
    context := new_context,
    callbacks := L.callbacks,
    cached_min_level := L.cached_min_level,
    cached_requirements := L.cached_requirements,
    cached_handler_requirements := L.cached_handler_requirements,
    cached_has_filters := L.cached_has_filters }

/-- `PyLogger::set_level`: set every console handler's level, then
refresh the min-level cache. -/
def PyLogger.set_level (L : PyLogger) (level : LogLevel) : PyLogger :=
  let newHandlers := L.handlers.val.map fun e =>
    match e.handler with
    | .console h => { e with handler := .console { h with level := level } }
    | .file _ => e
  update_min_level_cache { L with handlers := ⟨L.handlers.ref, newHandlers⟩ }

/-- `PyLogger::disable`: drop all console handlers. -/
def PyLogger.disable (L : PyLogger) : PyLogger :=
  let newHandlers := L.handlers.val.filter fun e =>
    match e.handler with
    | .console _ => false
    | .file _ => true
  update_requirements_cache (update_min_level_cache
    { L with handlers := ⟨L.handlers.ref, newHandlers⟩ })

/-- `PyLogger::enable`: append a console handler if none exists. -/
def PyLogger.enable (L : PyLogger) (id : Nat) (level : Option LogLevel) : PyLogger :=
  let has_console := L.handlers.val.any fun e =>
    match e.handler with
    | .console _ => true
    | .file _ => false
  let newHandlers :=
    if has_console then L.handlers.val
    else L.handlers.val ++ [⟨id, .console (ConsoleHandler.new (level.getD .debug)), none⟩]
  update_requirements_cache (update_min_level_cache
    { L with handlers := ⟨L.handlers.ref, newHandlers⟩ })

/-- `PyLogger::add_callback`. -/
def PyLogger.add_callback (L : PyLogger) (id : Nat) (cb : LogCallback)
    (level : Option LogLevel) : PyLogger :=
  update_requirements_cache (update_min_level_cache
    { L with callbacks := ⟨L.callbacks.ref, L.callbacks.val ++ [⟨id, cb, level.getD .debug⟩]⟩ })

/-- Remove the first callback with the given id. -/
def removeCbById (l : List CallbackEntry) (id : Nat) : List CallbackEntry :=
  match l with
  | [] => []
  | e :: rest => if e.id = id then rest else e :: removeCbById rest id

/-- `PyLogger::remove_callback`. -/
def PyLogger.remove_callback (L : PyLogger) (callback_id : Nat) : PyLogger :=
  update_requirements_cache (update_min_level_cache
    { L with callbacks := ⟨L.callbacks.ref, removeCbById L.callbacks.val callback_id⟩ })

/-- `PyLogger::remove_callbacks`: retain callbacks not in the id set;
caches are refreshed only when something was removed. -/
def PyLogger.remove_callbacks (L : PyLogger) (callback_ids : List Nat) : PyLogger :=
  let kept := L.callbacks.val.filter fun c => !callback_ids.contains c.id
  let removed := L.callbacks.val.length - kept.length
  let L1 := { L with callbacks := ⟨L.callbacks.ref, kept⟩ }
  if 0 < removed then update_requirements_cache (update_min_level_cache L1) else L1

/-! ### Dispatch (`_log` / `_log_custom`) and the record views -/

/-- Explicit call-site arguments of a log call. -/
structure LogArgs where
  message : String
  exception : Option String := none
  name : Option String := none
  function : Option String := none
  line : Option Nat := none
  file : Option String := none
  thread_name : Option String := none
  thread_id : Option Nat := none
  process_name : Option String := none
  process_id : Option Nat := none

/-- Record composition in `_log` / `_log_custom`: defaults for absent
arguments, zero-copy share of the logger's context. -/
def mkRecord (level : LogLevel) (level_info : Option LevelInfo)
    (ctx : List (String × String)) (a : LogArgs) (nowMillis : Nat) : LogRecord :=
  { timestamp := nowMillis,
    level := level,
    level_info := level_info,
    message := a.message,
    extra := ctx,
    exception := a.exception,
    caller := ⟨a.name.getD "", a.function.getD "", a.line.getD 0, a.file.getD ""⟩,
    thread := ⟨a.thread_name.getD "", a.thread_id.getD 0⟩,
    process := ⟨a.process_name.getD "", a.process_id.getD 0⟩ }

/-- `build_record_dict` (built-in-level dispatch): flat extras first,
then the built-in fields (overwriting any colliding extra), the elapsed
string, the nested extra dict, and the exception when present. -/
def build_record_dict (startTime : Nat) (level : LogLevel) (r : LogRecord) : RecordDict :=
  let extraVals : List (String × PyVal) := r.extra.map fun kv => (kv.1, .str kv.2)
  let d0 := dictSetAll [] extraVals
  let extra_dict := dictSetAll ([] : RecordDict) extraVals
  let d1 := dictSet d0 "level" (.str level.asStr)
  let d2 := dictSet d1 "message" (.str r.message)
  let d3 := dictSet d2 "timestamp" (.timeRfc3339 r.timestamp)
  let d4 := dictSet d3 "name" (.str r.caller.name)
  let d5 := dictSet d4 "function" (.str r.caller.function)
  let d6 := dictSet d5 "line" (.num r.caller.line)
  let d7 := dictSet d6 "file" (.str r.caller.file)
  let d8 := dictSet d7 "thread_name" (.str r.thread.name)
  let d9 := dictSet d8 "thread_id" (.num r.thread.id)
  let d10 := dictSet d9 "process_name" (.str r.process.name)
  let d11 := dictSet d10 "process_id" (.num r.process.id)
  let d12 := dictSet d11 "elapsed" (.str (format_elapsed startTime r.timestamp))
  let d13 := dictSet d12 "extra" (.dict extra_dict)
  match r.exception with
  | some exc => dictSet d13 "exception" (.str exc)
  | none => d13

/-- `build_custom_record_dict` (custom-level dispatch): level fields,
message, timestamp, then the flat extras (overwriting any colliding
built-in), and the exception when present. -/
def build_custom_record_dict (r : LogRecord) : RecordDict :=
  let d1 : RecordDict :=
    match r.level_info with
    | some info => dictSet (dictSet [] "level" (.str info.name)) "level_no" (.num info.no)
    | none => []
  let d2 := dictSet d1 "message" (.str r.message)
  let d3 := dictSet d2 "timestamp" (.timeRfc3339 r.timestamp)
  let d4 := dictSetAll d3 (r.extra.map fun kv => (kv.1, .str kv.2))
  match r.exception with
  | some exc => dictSet d4 "exception" (.str exc)
  | none => d4

/-- Whether a filter admits the record: present filters admit unless they
return a falsy value; a raised error admits (`unwrap_or(true)`). -/
def filterAdmits (filter : Option LogFilter) (view : RecordDict) : Bool :=
  match filter with
  | none => true
  | some f =>
    match f view with
    | .falsy => false
    | .truthy => true
    | .err => true

/-- The dispatch loop of `_log` / `_log_custom`, returning, per handler
in order, whether that handler's `handle` performed its write.  `view`
is the record view built once for callbacks and filters. -/
def dispatchWrites (L : PyLogger) (levelNo : Nat) (view : RecordDict) : List Bool :=
  let handlers := L.handlers.val
  let callbacks := L.callbacks.val
  let has_eligible_handler := handlers.any fun e => decide (e.handler.level.toNo ≤ levelNo)
  let has_eligible_callback := callbacks.any fun e => decide (e.level.toNo ≤ levelNo)
  if ¬has_eligible_handler ∧ ¬has_eligible_callback then handlers.map fun _ => false
  else
    let has_callbacks := !callbacks.isEmpty && has_eligible_callback
    let needs_gil := has_callbacks || L.cached_has_filters.val
    if needs_gil then
      handlers.map fun e => filterAdmits e.filter view && decide (e.handler.level.toNo ≤ levelNo)
    else
      handlers.map fun e => decide (e.handler.level.toNo ≤ levelNo)

/-- `_log`: build the record from the call site and context, build the
view, dispatch. -/
def PyLogger.logBuiltin (L : PyLogger) (startTime nowMillis : Nat)
    (level : LogLevel) (a : LogArgs) : List Bool :=
  let record := mkRecord level none L.context.val a nowMillis
  dispatchWrites L level.toNo (build_record_dict startTime level record)

/-- A `level_arg` as accepted by `PyLogger::log`: a level-name string or
a numeric severity. -/
inductive LevelArg where
  | byName (s : String)
  | byNo (n : Nat)

/-- Level resolution in `PyLogger::log`. -/
def resolveLevelArg (reg : Registry) : LevelArg → Option LevelInfo
  | .byName s => get_level_info reg s
  | .byNo n => get_level_by_no reg n

/-- Python-visible errors. -/
inductive PyErr where
  | valueError (msg : String)
  | ioError (msg : String)
deriving DecidableEq, Repr

/-- `PyLogger::log`: resolve the level (raising a value error when that
fails), then dispatch through `_log_custom`. -/
def PyLogger.log (reg : Registry) (L : PyLogger) (level_arg : LevelArg)
    (a : LogArgs) (nowMillis : Nat) : Except PyErr (List Bool) :=
  match resolveLevelArg reg level_arg with
  | none => .error (.valueError "Invalid log level")
  | some info =>
    let record := mkRecord .debug (some info) L.context.val a nowMillis
    .ok (dispatchWrites L info.no (build_custom_record_dict record))

/-- Dispatch instrumented with a per-handler sink-write outcome oracle
`wr` (by handler id): each returned pair is (record delivered to this
handler, that handler's write succeeded).  The `let _ =` in the source
discards the write result, so delivery never consults `wr`. -/
def dispatchWithSinkResults (L : PyLogger) (levelNo : Nat) (view : RecordDict)
    (wr : Nat → Bool) : List (Bool × Bool) :=
  (L.handlers.val.zip (dispatchWrites L levelNo view)).map fun p =>
    (p.2, !p.2 || wr p.1.id)

/-! ### The cache-updating mutations as a single step relation -/

/-- One cache-updating mutation of the logger (the arguments a fresh
handler/callback id would be drawn from the global counter are passed
explicitly). -/
inductive LoggerOp where
  | add (id : Nat) (path : String) (level : Option LogLevel) (format : Option String)
      (rotation retention : Option String) (compression serialize : Option Bool)
      (filter : Option LogFilter) (enqueue : Option Bool)
      (existingSize : Nat) (nowMillis : Int)
  | add_console (id : Nat) (stream : String) (level : Option LogLevel)
      (format : Option String) (serialize : Option Bool)
      (filter : Option LogFilter) (colorize : Option Bool)
  | remove (handler_id : Option Nat)
  | add_callback (id : Nat) (cb : LogCallback) (level : Option LogLevel)
  | remove_callback (callback_id : Nat)
  | remove_callbacks (callback_ids : List Nat)
  | set_level (level : LogLevel)
  | disable
  | enable (id : Nat) (level : Option LogLevel)

/-- Apply one mutation (a rejected `add_console` stream leaves the state
unchanged, as the error is raised before any mutation). -/
def applyOp (op : LoggerOp) (L : PyLogger) : PyLogger :=
  match op with
  | .add id path level format rotation retention compression serialize filter enqueue
      existingSize nowMillis =>
    L.add id path level format rotation retention compression serialize filter enqueue
      existingSize nowMillis
  | .add_console id stream level format serialize filter colorize =>
    match L.add_console id stream level format serialize filter colorize with
    | .ok L2 => L2
    | .error _ => L
  | .remove handler_id => L.remove handler_id
  | .add_callback id cb level => L.add_callback id cb level
  | .remove_callback callback_id => L.remove_callback callback_id
  | .remove_callbacks callback_ids => L.remove_callbacks callback_ids
  | .set_level level => L.set_level level
  | .disable => L.disable
  | .enable id level => L.enable id level

/-! ## Spec-side definitions

The following definitions restate claim-side descriptions in the spec's
own words, for comparison with the embedded code. -/

/-- Modelled from the spec (claim C3): the minimum numeric severity over
all current handler levels and callback levels, `u32::MAX` when there
are no handlers and no callbacks. -/
def specMinLevel (L : PyLogger) : Nat :=
  listMinD ((L.handlers.val.map fun e => e.handler.level.toNo)
    ++ (L.callbacks.val.map fun e => e.level.toNo)) u32Max

/-- The cache invariant of claim C3. -/
def minLevelInv (L : PyLogger) : Prop :=
  L.cached_min_level.val = specMinLevel L

/-- The `cached_has_filters` hint agrees with the handler list (it is
recomputed by every mutation that can change filter presence). -/
def filtersConsistent (L : PyLogger) : Prop :=
  L.cached_has_filters.val = L.handlers.val.any fun e => e.filter.isSome

/-- The write condition of claim C1 for one handler entry, as the claim
states it: the record's severity reaches the handler's level, and the
handler has no filter or its filter, evaluated on the view, returned a
truthy value or raised. -/
def c1WriteCond (e : HandlerEntry) (levelNo : Nat) (view : RecordDict) : Prop :=
  e.handler.level.toNo ≤ levelNo ∧
    (e.filter = none ∨ ∃ f, e.filter = some f ∧ f view ≠ .falsy)

/-- The built-in keys of the record view (claim C2). -/
def builtinKeys : List String :=
  ["level", "message", "timestamp", "name", "function", "line", "file",
   "thread_name", "thread_id", "process_name", "process_id", "elapsed",
   "extra", "exception"]

/-- Modelled from the spec (claim C10, as stated): classify each
character of the trimmed uppercased input — digits and dots form the
numeric part, the rest the unit — and return `floor(n × m)` exactly,
with no clamping (an infinite parse has no floor). -/
def specParseSizeC10 (s : String) : Option Nat :=
  let t := (rustTrim s.data).map asciiUpper
  let numeric := t.filter fun c => c.isDigit || c = '.'
  let unit := t.filter fun c => !(c.isDigit || c = '.')
  match rustParseF64 (rustTrim numeric), unitMultiplier ⟨rustTrim unit⟩ with
  | some (.finite q), some m => some (Frac.floor ⟨q.num * m, q.den⟩).toNat
  | _, _ => none

/-- Modelled from the spec (claim C10, amended): as `specParseSizeC10`,
but the product is truncated toward zero and saturated into the `u64`
range, an infinite parse saturating to `u64::MAX`. -/
def specParseSizeAmended (s : String) : Option Nat :=
  let t := (rustTrim s.data).map asciiUpper
  let numeric := t.filter fun c => c.isDigit || c = '.'
  let unit := t.filter fun c => !(c.isDigit || c = '.')
  match rustParseF64 (rustTrim numeric), unitMultiplier ⟨rustTrim unit⟩ with
  | some fv, some m => some (fvalToU64 (fv.mulNat m))
  | _, _ => none

/-- The trimmed, lowercased form `parse_rotation` normalizes to. -/
def lowerTrim (s : String) : String := ⟨(rustTrim s.data).map asciiLower⟩

/-- The recognized time-rotation keywords. -/
def rotationKeyword (t : String) : Prop :=
  t = "daily" ∨ t = "1 day" ∨ t = "1day" ∨
  t = "hourly" ∨ t = "1 hour" ∨ t = "1hour"

/-! ## Concrete states used by witnesses and counterexamples -/

/-- A registry with no custom levels. -/
def emptyRegistry : Registry := ⟨[], []⟩

/-- A concrete always-admitting filter. -/
def exFilter : LogFilter := fun _ => .truthy

/-- A concrete filtered handler entry. -/
def exEntry : HandlerEntry := ⟨1, .console (ConsoleHandler.new .warning), some exFilter⟩

/-- A concrete logger with an unfiltered debug console handler and a
filtered warning console handler, caches freshly recomputed. -/
def exLogger : PyLogger :=
  update_requirements_cache (update_min_level_cache
    { handlers := ⟨10, [⟨0, .console (ConsoleHandler.new .debug), none⟩, exEntry]⟩,
      context := ⟨11, [("user", "amy")]⟩,
      callbacks := ⟨12, []⟩,
      cached_min_level := ⟨13, 0⟩,
      cached_requirements := ⟨14, {}⟩,
      cached_handler_requirements := ⟨15, {}⟩,
      cached_has_filters := ⟨16, false⟩ })

/-- A concrete custom-level record whose extras collide with a built-in
view key. -/
def exCustomRecord : LogRecord :=
  { timestamp := 0,
    level := .debug,
    level_info := some ⟨"NOTICE", 35, "cyan", none⟩,
    message := "hello",
    extra := [("message", "spoof")],
    exception := none,
    caller := ⟨"mymod", "myfn", 3, "my.py"⟩,
    thread := ⟨"main", 1⟩,
    process := ⟨"proc", 2⟩ }

/-- A built-in-level record whose extras both collide with a built-in
view key and add a fresh one. -/
def exBuiltinRecord : LogRecord :=
  { timestamp := 5000,
    level := .info,
    level_info := none,
    message := "hello",
    extra := [("message", "spoof"), ("user", "amy")],
    exception := some "tb",
    caller := ⟨"mymod", "myfn", 3, "my.py"⟩,
    thread := ⟨"main", 1⟩,
    process := ⟨"proc", 2⟩ }

/-- A file sink with `max_size = 100` bytes, no time rotation, no
retention, no compression, whose `current_size` has reached 150. -/
def c4Sink : FileSinkSt :=
  { config := ⟨"app.log", .never, some 100, none, none, false, false⟩,
    current_size := 150,
    next_rotation_boundary := 0 }

/-! # Theorems -/

/-! ## Shared helper lemmas -/

theorem dictLookup_dictSet_self {α : Type} (d : List (String × α)) (k : String) (v : α) :
    dictLookup (dictSet d k v) k = some v := by
  induction d with
  | nil => simp [dictSet, dictLookup]
  | cons hd tl ih =>
    by_cases h : hd.1 = k
    · simp [dictSet, dictLookup, h]
    · simpa [dictSet, dictLookup, h] using ih

theorem dictLookup_dictSet_ne {α : Type} (d : List (String × α)) {k1 k : String}
    (v : α) (h : k1 ≠ k) : dictLookup (dictSet d k1 v) k = dictLookup d k := by
  induction d with
  | nil => simp [dictSet, dictLookup, h]
  | cons hd tl ih =>
    by_cases h2 : hd.1 = k1
    · simp [dictSet, dictLookup, h2, h]
    · simp only [dictSet, h2, if_false]
      by_cases h3 : hd.1 = k
      · simp [dictLookup, h3]
      · simpa [dictLookup, h3] using ih

theorem myFindAppend {α : Type} (p : α → Bool) (l1 l2 : List α) :
    (l1 ++ l2).find? p =
      match l1.find? p with
      | some x => some x
      | none => l2.find? p := by
  induction l1 with
  | nil => simp
  | cons hd tl ih =>
    by_cases h : p hd
    · simp [List.find?, h]
    · simp [List.find?, h, ih]

theorem dictLookup_dictSetAll {α : Type} (kvs : List (String × α))
    (d : List (String × α)) (k : String) :
    dictLookup (dictSetAll d kvs) k = lastWins kvs k (dictLookup d k) := by
  unfold lastWins
  induction kvs generalizing d with
  | nil => simp [dictSetAll]
  | cons hd tl ih =>
    have step : dictSetAll d (hd :: tl) = dictSetAll (dictSet d hd.1 hd.2) tl := rfl
    rw [step, ih]
    rw [List.reverse_cons, myFindAppend]
    rcases hfind : tl.reverse.find? (fun p => p.1 = k) with _ | p
    · simp only [hfind]
      by_cases hk : hd.1 = k
      · subst hk
        simp [List.find?, dictLookup_dictSet_self]
      · simp [List.find?, hk, dictLookup_dictSet_ne d hd.2 hk]
    · simp only [hfind]

theorem foldrMin_min (l : List Nat) (x y : Nat) :
    l.foldr min (min x y) = min (l.foldr min x) y := by
  induction l with
  | nil => rfl
  | cons hd tl ih => simp [List.foldr, ih, Nat.min_assoc]

theorem foldrMin_le (l : List Nat) (d : Nat) : l.foldr min d ≤ d := by
  induction l with
  | nil => simp
  | cons hd tl ih =>
    simp only [List.foldr]
    exact le_trans (Nat.min_le_right _ _) ih

theorem listMinD_append (a b : List Nat) (d : Nat) :
    listMinD (a ++ b) d = min (listMinD a d) (listMinD b d) := by
  unfold listMinD
  rw [List.foldr_append]
  conv_lhs => rw [show b.foldr min d = min d (b.foldr min d) from
    (Nat.min_eq_right (foldrMin_le b d)).symm]
  conv_lhs => rw [foldrMin_min]

theorem update_min_level_cache_minLevelInv (L : PyLogger) :
    minLevelInv (update_min_level_cache L) := by
  unfold minLevelInv update_min_level_cache specMinLevel
  simp [listMinD_append]

theorem minLevelInv_urc_umlc (L : PyLogger) :
    minLevelInv (update_requirements_cache (update_min_level_cache L)) :=
  update_min_level_cache_minLevelInv L

theorem urc_preserves_minLevelInv (L : PyLogger) :
    minLevelInv (update_requirements_cache L) ↔ minLevelInv L := Iff.rfl

theorem dispatchWrites_length (L : PyLogger) (levelNo : Nat) (view : RecordDict) :
    (dispatchWrites L levelNo view).length = L.handlers.val.length := by
  unfold dispatchWrites
  dsimp only
  split
  · simp
  · split <;> simp

/-! ## Claim C8 -/

/-- Claim C8: `parse_size("1 KB")` is 1024 and `parse_size("500 MB")` is
500·1024²; `parse_rotation("daily")` is `Daily` with no size,
`parse_rotation("500 MB")` is `Never` with size 500·1024², and a rotation
string that is neither a recognized time keyword nor a parseable size
yields `Never` with no size. -/
theorem claim_C8 :
    parse_size "1 KB" = some 1024 ∧
    parse_size "500 MB" = some (500 * 1024 ^ 2) ∧
    parse_rotation "daily" = (.daily, none) ∧
    parse_rotation "500 MB" = (.never, some (500 * 1024 ^ 2)) ∧
    ∀ s, ¬ rotationKeyword (lowerTrim s) → parse_size (lowerTrim s) = none →
      parse_rotation s = (.never, none) := by
  refine ⟨by decide, by decide, by decide, by decide, ?_⟩
  intro s hkw hps
  unfold rotationKeyword lowerTrim at hkw
  unfold lowerTrim at hps
  push_neg at hkw
  obtain ⟨h1, h2, h3, h4, h5, h6⟩ := hkw
  unfold parse_rotation
  simp [h1, h2, h3, h4, h5, h6, hps]

/-- Witness for claim C8 at the unparseable rotation string "weekly". -/
theorem claim_C8_witness :
    (¬ rotationKeyword (lowerTrim "weekly")) ∧
    parse_size (lowerTrim "weekly") = none ∧
    parse_rotation "weekly" = (.never, none) := by
  refine ⟨?_, by decide, claim_C8.2.2.2.2 "weekly" ?_ (by decide)⟩ <;>
    · unfold rotationKeyword; decide

/-! ## Claim C4 -/

/-- Claim C4 is violated by the code: on a write with
`current_size = 150 ≥ max_size = 100`, the size-triggered rotation fires
and completes; afterwards `current_size` is small again, the rotated file
`app.1000.log` exists, but no file exists at the configured path
`app.log` — `rotate` renamed it away and nothing recreates it. -/
theorem claim_C4_code_bug :
    check_rotation_needed c4Sink 1000 = true ∧
    (FileSink.write ["app.log"] c4Sink 1000 20).2.current_size < 100 ∧
    "app.1000.log" ∈ (FileSink.write ["app.log"] c4Sink 1000 20).1 ∧
    "app.log" ∉ (FileSink.write ["app.log"] c4Sink 1000 20).1 := by
  refine ⟨by decide, by decide, by decide, by decide⟩

/-! ## Claim C7 -/

/-- Claim C7: `bind` with no arguments or an empty mapping returns a
logger sharing the parent's context reference; `bind` with a non-empty
mapping shares the parent's handlers, callbacks and caches, allocates a
fresh context reference, and the new context is the parent's mapping
overlaid with the new pairs (later pairs winning). -/
theorem claim_C7 (L : PyLogger) (freshRef : Nat) :
    (L.bind freshRef none).context = L.context ∧
    (L.bind freshRef (some [])).context = L.context ∧
    ∀ kvs, kvs ≠ [] →
      (L.bind freshRef (some kvs)).handlers = L.handlers ∧
      (L.bind freshRef (some kvs)).callbacks = L.callbacks ∧
      (L.bind freshRef (some kvs)).cached_min_level = L.cached_min_level ∧
      (L.bind freshRef (some kvs)).cached_requirements = L.cached_requirements ∧
      (L.bind freshRef (some kvs)).cached_handler_requirements
        = L.cached_handler_requirements ∧
      (L.bind freshRef (some kvs)).cached_has_filters = L.cached_has_filters ∧
      (L.bind freshRef (some kvs)).context.ref = freshRef ∧
      ∀ k, dictLookup (L.bind freshRef (some kvs)).context.val k =
        lastWins kvs k (dictLookup L.context.val k) := by
  refine ⟨rfl, rfl, ?_⟩
  intro kvs hne
  cases kvs with
  | nil => exact absurd rfl hne
  | cons hd tl =>
    refine ⟨rfl, rfl, rfl, rfl, rfl, rfl, rfl, fun k => ?_⟩
    show dictLookup (dictSetAll L.context.val (hd :: tl)) k = _
    exact dictLookup_dictSetAll (hd :: tl) L.context.val k

/-- Witness for claim C7: binding `{a ↦ b}` on a fresh logger. -/
theorem claim_C7_witness :
    (([("a", "b")] : List (String × String)) ≠ []) ∧
    ((PyLogger.new 0 none).bind 7 (some [("a", "b")])).context.ref = 7 ∧
    dictLookup ((PyLogger.new 0 none).bind 7 (some [("a", "b")])).context.val "a"
      = some "b" := by
  have h := (claim_C7 (PyLogger.new 0 none) 7).2.2 [("a", "b")] (by decide)
  refine ⟨by decide, h.2.2.2.2.2.2.1, ?_⟩
  have h2 := h.2.2.2.2.2.2.2 "a"
  simpa using h2

/-! ## Claim C9 -/

/-- Claim C9: `set_level(l)` sets the level of every console handler to
`l` and changes nothing else — file entries are untouched entirely, ids,
filters and list positions are preserved, and the callback list and
bound context are unchanged. -/
theorem claim_C9 (L : PyLogger) (lv : LogLevel) :
    (L.set_level lv).callbacks = L.callbacks ∧
    (L.set_level lv).context = L.context ∧
    (L.set_level lv).handlers.ref = L.handlers.ref ∧
    (L.set_level lv).handlers.val.length = L.handlers.val.length ∧
    ∀ (i : Nat) (e : HandlerEntry), L.handlers.val[i]? = some e →
      ∃ e2 : HandlerEntry, (L.set_level lv).handlers.val[i]? = some e2 ∧
        e2.id = e.id ∧ e2.filter = e.filter ∧
        (∀ h, e.handler = .console h →
          e2.handler = .console ⟨lv, h.format, h.colorize, h.use_stderr⟩) ∧
        (∀ h, e.handler = .file h → e2 = e) := by
  refine ⟨rfl, rfl, rfl, ?_, ?_⟩
  · simp [PyLogger.set_level, update_min_level_cache]
  intro i e he
  cases hh : e.handler with
  | console ch =>
    have hmap : (L.set_level lv).handlers.val[i]? = some
        { e with handler := HandlerType.console { ch with level := lv } } := by
      simp [PyLogger.set_level, update_min_level_cache, List.getElem?_map, he, hh]
    refine ⟨_, hmap, rfl, rfl, ?_, ?_⟩
    · intro h2 heq
      injection heq with h3
      subst h3
      rfl
    · intro h2 heq
      exact HandlerType.noConfusion heq
  | file fh =>
    have hmap : (L.set_level lv).handlers.val[i]? = some e := by
      simp [PyLogger.set_level, update_min_level_cache, List.getElem?_map, he, hh]
    refine ⟨e, hmap, rfl, rfl, ?_, fun h2 _ => rfl⟩
    intro h2 heq
    exact HandlerType.noConfusion heq

/-- Witness for claim C9 on a concrete two-handler logger. -/
theorem claim_C9_witness :
    (exLogger.set_level .error).callbacks = exLogger.callbacks ∧
    (exLogger.set_level .error).handlers.val.length = exLogger.handlers.val.length ∧
    ∃ e2, (exLogger.set_level .error).handlers.val[1]? = some e2 ∧
      e2.id = exEntry.id := by
  refine ⟨(claim_C9 exLogger .error).1, (claim_C9 exLogger .error).2.2.2.1, ?_⟩
  obtain ⟨e2, h1, h2, _⟩ := (claim_C9 exLogger .error).2.2.2.2 1 exEntry rfl
  exact ⟨e2, h1, h2⟩

/-! ## Claim C3 -/

/-- Claim C3: every cache-updating mutation preserves the
`cached_min_level` invariant — after it, the cache equals the minimum
severity over all current handler and callback levels (`u32::MAX` when
both lists are empty). -/
theorem claim_C3 (op : LoggerOp) (L : PyLogger) (hinv : minLevelInv L) :
    minLevelInv (applyOp op L) := by
  cases op with
  | add id path level format rotation retention compression serialize filter enqueue
      existingSize nowMillis =>
    exact minLevelInv_urc_umlc _
  | add_console id stream level format serialize filter colorize =>
    by_cases hs : stream ≠ "stdout" ∧ stream ≠ "stderr"
    · unfold applyOp PyLogger.add_console
      dsimp only
      rw [if_pos hs]
      exact hinv
    · unfold applyOp PyLogger.add_console
      dsimp only
      rw [if_neg hs]
      exact minLevelInv_urc_umlc _
  | remove handler_id => exact minLevelInv_urc_umlc _
  | add_callback id cb level => exact minLevelInv_urc_umlc _
  | remove_callback callback_id => exact minLevelInv_urc_umlc _
  | remove_callbacks callback_ids =>
    unfold applyOp PyLogger.remove_callbacks
    dsimp only
    split
    · exact minLevelInv_urc_umlc _
    · rename_i hnot
      have hsub : List.Sublist
          (L.callbacks.val.filter fun c => !callback_ids.contains c.id)
          L.callbacks.val := List.filter_sublist _
      have hge : L.callbacks.val.length ≤
          (L.callbacks.val.filter fun c => !callback_ids.contains c.id).length := by
        have := Nat.eq_zero_of_not_pos hnot
        omega
      have heq := hsub.eq_of_length (Nat.le_antisymm hsub.length_le hge)
      rw [heq]
      exact hinv
  | set_level level => exact update_min_level_cache_minLevelInv _
  | disable => exact minLevelInv_urc_umlc _
  | enable id level => exact minLevelInv_urc_umlc _

/-- Witness for claim C3: a fresh logger satisfies the invariant and
`set_level` preserves it. -/
theorem claim_C3_witness :
    minLevelInv (PyLogger.new 0 none) ∧
    minLevelInv (applyOp (.set_level .warning) (PyLogger.new 0 none)) :=
  ⟨by rfl, claim_C3 _ _ (by rfl)⟩

/-! ## Claim C5 -/

/-- Claim C5 as stated is false: `log` with an unresolvable level
argument raises a value error to its caller. -/
theorem claim_C5_counterexample :
    PyLogger.log emptyRegistry exLogger (.byName "NOSUCH") { message := "m" } 0
      = .error (.valueError "Invalid log level") := rfl

/-- Claim C5 (amended): `log` raises exactly when its level argument
does not resolve in the registry (the eight named level methods return
unit by construction and cannot raise); and dispatch discards each
handler's write result, so which handlers receive the record is
independent of any sink's write outcome. -/
theorem claim_C5 :
    (∀ (reg : Registry) (L : PyLogger) (arg : LevelArg) (a : LogArgs) (now : Nat),
      (PyLogger.log reg L arg a now = .error (.valueError "Invalid log level"))
        ↔ resolveLevelArg reg arg = none) ∧
    (∀ (L : PyLogger) (lv : Nat) (view : RecordDict) (wr1 wr2 : Nat → Bool),
      (dispatchWithSinkResults L lv view wr1).map Prod.fst
        = (dispatchWithSinkResults L lv view wr2).map Prod.fst ∧
      (dispatchWithSinkResults L lv view wr1).map Prod.fst
        = dispatchWrites L lv view) := by
  constructor
  · intro reg L arg a now
    rcases hres : resolveLevelArg reg arg with _ | info <;>
      simp [PyLogger.log, hres]
  · intro L lv view wr1 wr2
    have hlen : (dispatchWrites L lv view).length ≤ L.handlers.val.length :=
      le_of_eq (dispatchWrites_length L lv view)
    constructor
    · simp [dispatchWithSinkResults, List.map_map, Function.comp]
    · simp only [dispatchWithSinkResults, List.map_map]
      have : (Prod.fst ∘ fun p : HandlerEntry × Bool => (p.2, !p.2 || wr1 p.1.id))
          = Prod.snd := rfl
      rw [this]
      exact List.map_snd_zip _ _ hlen

/-! ## Claim C10 -/

/-- Claim C10 as stated is false: on the input `"18446744073709551616"`
(which parses exactly to 2^64) `floor(n × m)` is 2^64, but the `as u64`
conversion saturates, so `parse_size` returns `u64::MAX` = 2^64 − 1. -/
theorem claim_C10_counterexample :
    specParseSizeC10 "18446744073709551616" = some 18446744073709551616 ∧
    parse_size "18446744073709551616" = some 18446744073709551615 ∧
    (18446744073709551616 : Nat) ≠ 18446744073709551615 :=
  ⟨by decide, by decide, by decide⟩

/-- Claim C10 (amended): `parse_size` classifies characters by class
(digits and dots form the numeric part wherever they occur, the rest the
unit), and when the numeric part parses as a float and the trimmed unit
is in the multiplier table it returns the product truncated toward zero
and saturated into the `u64` range (an overflow/infinite product giving
`u64::MAX`); otherwise `None`. -/
theorem claim_C10 : ∀ s, parse_size s = specParseSizeAmended s := by
  intro s
  unfold parse_size specParseSizeAmended
  dsimp only
  rw [List.partition_eq_filter_filter]
  simp only [Function.comp_def]
  rcases h1 : rustParseF64 (rustTrim (((rustTrim s.data).map asciiUpper).filter
      fun c => c.isDigit || c = '.')) with _ | fv <;>
    rcases h2 : unitMultiplier ⟨rustTrim (((rustTrim s.data).map asciiUpper).filter
      fun c => !(c.isDigit || c = '.'))⟩ with _ | m <;>
    simp [h1, h2]

/-! ## Claim C1 -/

theorem mem_of_lookupIdx {α : Type} :
    ∀ (l : List α) (i : Nat) (a : α), l[i]? = some a → a ∈ l := by
  intro l
  induction l with
  | nil => intro i a h; cases h
  | cons hd tl ih =>
    intro i a h
    cases i with
    | zero =>
      simp only [List.getElem?_cons_zero, Option.some.injEq] at h
      exact h ▸ List.mem_cons_self hd tl
    | succ n =>
      simp only [List.getElem?_cons_succ] at h
      exact List.mem_cons_of_mem hd (ih n a h)

theorem filterAdmits_eq_true_iff (fl : Option LogFilter) (view : RecordDict) :
    filterAdmits fl view = true ↔
      (fl = none ∨ ∃ f, fl = some f ∧ f view ≠ .falsy) := by
  cases fl with
  | none => simp [filterAdmits]
  | some f =>
    cases hfv : f view with
    | truthy => simp [filterAdmits, hfv]
    | falsy => simp [filterAdmits, hfv]
    | err => simp [filterAdmits, hfv]

/-- Claim C1: with the filter cache consistent with the handler list, a
handler performs its write in dispatch exactly when the record's
severity reaches its level and its filter (if any) evaluated on the
record view is truthy or raised. -/
theorem claim_C1 (L : PyLogger) (hc : filtersConsistent L) (levelNo : Nat)
    (view : RecordDict) (i : Nat) (e : HandlerEntry)
    (he : L.handlers.val[i]? = some e) :
    ((dispatchWrites L levelNo view)[i]? = some true) ↔ c1WriteCond e levelNo view := by
  have hmem : e ∈ L.handlers.val := mem_of_lookupIdx _ i e he
  unfold dispatchWrites
  dsimp only
  split
  · rename_i hearly
    obtain ⟨hA, _⟩ := hearly
    rw [List.getElem?_map, he]
    constructor
    · intro hcontra
      exact absurd hcontra (by simp)
    · intro hcond
      exfalso
      exact hA (List.any_eq_true.mpr ⟨e, hmem, by simpa using hcond.1⟩)
  · split
    · rw [List.getElem?_map, he]
      unfold c1WriteCond
      simp only [Option.map_some', Option.some.injEq, Bool.and_eq_true,
        decide_eq_true_eq, filterAdmits_eq_true_iff]
      constructor
      · rintro ⟨hf, hl⟩; exact ⟨hl, hf⟩
      · rintro ⟨hl, hf⟩; exact ⟨hf, hl⟩
    · rename_i hngil
      have hnofilters : (L.handlers.val.any fun e2 => e2.filter.isSome) = false := by
        cases hbv : (L.handlers.val.any fun e2 => e2.filter.isSome) with
        | false => rfl
        | true =>
          exfalso
          apply hngil
          unfold filtersConsistent at hc
          rw [hc, hbv]
          simp
      have hfil : e.filter = none := by
        cases hf : e.filter with
        | none => rfl
        | some f =>
          exfalso
          have h2 : (L.handlers.val.any fun e2 => e2.filter.isSome) = true :=
            List.any_eq_true.mpr ⟨e, hmem, by simp [hf]⟩
          rw [hnofilters] at h2
          cases h2
      rw [List.getElem?_map, he]
      unfold c1WriteCond
      simp only [Option.map_some', Option.some.injEq, decide_eq_true_eq, hfil]
      constructor
      · intro hl; exact ⟨hl, Or.inl trivial⟩
      · intro hcond; exact hcond.1

/-- Witness for claim C1 on a concrete logger whose second handler
carries an always-true filter; the record view is empty and the severity
is WARNING (30). -/
theorem claim_C1_witness :
    filtersConsistent exLogger ∧
    (((dispatchWrites exLogger 30 [])[1]? = some true) ↔ c1WriteCond exEntry 30 []) :=
  ⟨by rfl, claim_C1 exLogger (by rfl) 30 [] 1 exEntry rfl⟩

/-! ## Claim C2 -/

/-- A flipped form of `dictLookup_dictSet_ne` whose hypothesis matches
`k ≠ literal` facts. -/
theorem dictLookup_dictSet_ne2 {α : Type} (d : List (String × α)) {k k1 : String}
    (v : α) (h : k ≠ k1) : dictLookup (dictSet d k1 v) k = dictLookup d k :=
  dictLookup_dictSet_ne d v (Ne.symm h)

/-- Claim C2 as stated is false on the custom-level dispatch path: the
view built by `build_custom_record_dict` has no caller fields at all,
and an extra named `message` overwrites the built-in message (extras are
written after the built-ins there). -/
theorem claim_C2_counterexample :
    dictLookup (build_custom_record_dict exCustomRecord) "function" = none ∧
    dictLookup (build_custom_record_dict exCustomRecord) "message"
      = some (.str "spoof") ∧
    exCustomRecord.message = "hello" ∧
    exCustomRecord.caller.function = "myfn" :=
  ⟨rfl, rfl, rfl, rfl⟩

/-- Claim C2 (amended): on the built-in-level dispatch path the record
view contains the level name, message, timestamp, caller fields, thread
and process fields, the elapsed string, the extras both nested and flat,
and the exception when present; built-in keys always hold the built-in
value (extras are written first, then overwritten), and extras whose key
is not a built-in appear flat with last-write-wins. -/
theorem claim_C2 (startTime : Nat) (level : LogLevel) (r : LogRecord) :
    dictLookup (build_record_dict startTime level r) "level"
      = some (.str level.asStr) ∧
    dictLookup (build_record_dict startTime level r) "message"
      = some (.str r.message) ∧
    dictLookup (build_record_dict startTime level r) "timestamp"
      = some (.timeRfc3339 r.timestamp) ∧
    dictLookup (build_record_dict startTime level r) "name"
      = some (.str r.caller.name) ∧
    dictLookup (build_record_dict startTime level r) "function"
      = some (.str r.caller.function) ∧
    dictLookup (build_record_dict startTime level r) "line"
      = some (.num r.caller.line) ∧
    dictLookup (build_record_dict startTime level r) "file"
      = some (.str r.caller.file) ∧
    dictLookup (build_record_dict startTime level r) "thread_name"
      = some (.str r.thread.name) ∧
    dictLookup (build_record_dict startTime level r) "thread_id"
      = some (.num r.thread.id) ∧
    dictLookup (build_record_dict startTime level r) "process_name"
      = some (.str r.process.name) ∧
    dictLookup (build_record_dict startTime level r) "process_id"
      = some (.num r.process.id) ∧
    dictLookup (build_record_dict startTime level r) "elapsed"
      = some (.str (format_elapsed startTime r.timestamp)) ∧
    dictLookup (build_record_dict startTime level r) "extra"
      = some (.dict (dictSetAll [] (r.extra.map fun kv => (kv.1, .str kv.2)))) ∧
    (∀ exc, r.exception = some exc →
      dictLookup (build_record_dict startTime level r) "exception"
        = some (.str exc)) ∧
    (∀ k, k ∉ builtinKeys →
      dictLookup (build_record_dict startTime level r) k
        = lastWins (r.extra.map fun kv => (kv.1, .str kv.2)) k none) := by
  unfold build_record_dict
  dsimp only
  cases hexc : r.exception with
  | none =>
    refine ⟨?_, ?_, ?_, ?_, ?_, ?_, ?_, ?_, ?_, ?_, ?_, ?_, ?_, ?_, ?_⟩
    case _ : ∀ _, _ → _ => exact fun exc h => nomatch h
    case _ : ∀ _, _ ∉ _ → _ =>
      intro k hk
      simp only [builtinKeys, List.mem_cons, List.not_mem_nil, or_false] at hk
      push_neg at hk
      obtain ⟨h1, h2, h3, h4, h5, h6, h7, h8, h9, h10, h11, h12, h13, h14⟩ := hk
      rw [dictLookup_dictSet_ne2 _ _ h13, dictLookup_dictSet_ne2 _ _ h12,
        dictLookup_dictSet_ne2 _ _ h11, dictLookup_dictSet_ne2 _ _ h10,
        dictLookup_dictSet_ne2 _ _ h9, dictLookup_dictSet_ne2 _ _ h8,
        dictLookup_dictSet_ne2 _ _ h7, dictLookup_dictSet_ne2 _ _ h6,
        dictLookup_dictSet_ne2 _ _ h5, dictLookup_dictSet_ne2 _ _ h4,
        dictLookup_dictSet_ne2 _ _ h3, dictLookup_dictSet_ne2 _ _ h2,
        dictLookup_dictSet_ne2 _ _ h1]
      simpa using dictLookup_dictSetAll (r.extra.map fun kv => (kv.1, PyVal.str kv.2)) [] k
    all_goals simp [dictLookup_dictSet_self, dictLookup_dictSet_ne]
  | some exc =>
    refine ⟨?_, ?_, ?_, ?_, ?_, ?_, ?_, ?_, ?_, ?_, ?_, ?_, ?_, ?_, ?_⟩
    case _ : ∀ _, _ → _ =>
      intro exc2 h
      cases h
      simp [dictLookup_dictSet_self]
    case _ : ∀ _, _ ∉ _ → _ =>
      intro k hk
      simp only [builtinKeys, List.mem_cons, List.not_mem_nil, or_false] at hk
      push_neg at hk
      obtain ⟨h1, h2, h3, h4, h5, h6, h7, h8, h9, h10, h11, h12, h13, h14⟩ := hk
      rw [dictLookup_dictSet_ne2 _ _ h14, dictLookup_dictSet_ne2 _ _ h13,
        dictLookup_dictSet_ne2 _ _ h12, dictLookup_dictSet_ne2 _ _ h11,
        dictLookup_dictSet_ne2 _ _ h10, dictLookup_dictSet_ne2 _ _ h9,
        dictLookup_dictSet_ne2 _ _ h8, dictLookup_dictSet_ne2 _ _ h7,
        dictLookup_dictSet_ne2 _ _ h6, dictLookup_dictSet_ne2 _ _ h5,
        dictLookup_dictSet_ne2 _ _ h4, dictLookup_dictSet_ne2 _ _ h3,
        dictLookup_dictSet_ne2 _ _ h2, dictLookup_dictSet_ne2 _ _ h1]
      simpa using dictLookup_dictSetAll (r.extra.map fun kv => (kv.1, PyVal.str kv.2)) [] k
    all_goals simp [dictLookup_dictSet_self, dictLookup_dictSet_ne]

/-- Witness for claim C2: on a record whose extras collide with
`message` and add `user`, the built-in message wins and the fresh extra
appears flat. -/
theorem claim_C2_witness :
    dictLookup (build_record_dict 0 .info exBuiltinRecord) "message"
      = some (.str "hello") ∧
    ("user" ∉ builtinKeys) ∧
    dictLookup (build_record_dict 0 .info exBuiltinRecord) "user"
      = some (.str "amy") := by
  have h := claim_C2 0 .info exBuiltinRecord
  refine ⟨?_, by decide, ?_⟩
  · have hm := h.2.1
    simpa using hm
  · have hu := h.2.2.2.2.2.2.2.2.2.2.2.2.2.2 "user" (by decide)
    rw [hu]
    rfl

/-! ## Claim C6 -/

theorem spanPlaceholder_rest_length (cs : List Char) :
    (spanPlaceholder cs).rest.length ≤ cs.length := by
  induction cs with
  | nil => simp [spanPlaceholder]
  | cons c rest ih =>
    by_cases hc : c = '\x7d'
    · simp [spanPlaceholder, hc]
    · simp only [spanPlaceholder, hc, if_false]
      exact Nat.le_succ_of_le ih

theorem staticConcat_append (a b : List FormatToken) :
    staticConcat (a ++ b) = staticConcat a ++ staticConcat b := by
  induction a with
  | nil => simp [staticConcat]
  | cons t rest ih =>
    cases t <;> simp [staticConcat, ih]

theorem staticConcat_flush (buf : List Char) (x : List FormatToken) :
    staticConcat ((if buf.isEmpty then [] else [FormatToken.static buf]) ++ x)
      = buf ++ staticConcat x := by
  cases buf <;> simp [staticConcat_append, staticConcat]

theorem classify_static_elim (ph : List Char) (s : List Char) :
    classifyPlaceholder ph ≠ some (.static s) := by
  unfold classifyPlaceholder
  by_cases h1 : ph = "time".data
  · rw [if_pos h1]; exact fun h => nomatch h
  rw [if_neg h1]
  by_cases h2 : ph = "message".data
  · rw [if_pos h2]; exact fun h => nomatch h
  rw [if_neg h2]
  by_cases h3 : ph = "level".data
  · rw [if_pos h3]; exact fun h => nomatch h
  rw [if_neg h3]
  by_cases h4 : ph = "name".data
  · rw [if_pos h4]; exact fun h => nomatch h
  rw [if_neg h4]
  by_cases h5 : ph = "function".data
  · rw [if_pos h5]; exact fun h => nomatch h
  rw [if_neg h5]
  by_cases h6 : ph = "line".data
  · rw [if_pos h6]; exact fun h => nomatch h
  rw [if_neg h6]
  by_cases h7 : ph = "elapsed".data
  · rw [if_pos h7]; exact fun h => nomatch h
  rw [if_neg h7]
  by_cases h8 : ph = "thread".data
  · rw [if_pos h8]; exact fun h => nomatch h
  rw [if_neg h8]
  by_cases h9 : ph = "process".data
  · rw [if_pos h9]; exact fun h => nomatch h
  rw [if_neg h9]
  by_cases h10 : ph = "file".data
  · rw [if_pos h10]; exact fun h => nomatch h
  rw [if_neg h10]
  by_cases h11 : ph = "module".data
  · rw [if_pos h11]; exact fun h => nomatch h
  rw [if_neg h11]
  by_cases h12 : ("level:<".data.isPrefixOf ph) = true
  · rw [if_pos h12]
    cases hp : parseUsize (ph.drop 7) with
    | none => exact fun h => nomatch h
    | some w => exact fun h => nomatch h
  rw [if_neg h12]
  by_cases h13 : ("extra[".data.isPrefixOf ph ∧ ph.getLast? = some ']')
  · rw [if_pos h13]; exact fun h => nomatch h
  · rw [if_neg h13]; exact fun h => nomatch h

theorem classify_not_static (ph : List Char) (tok : FormatToken)
    (h : classifyPlaceholder ph = some tok) (l : List FormatToken) :
    staticConcat (tok :: l) = staticConcat l := by
  cases tok <;> try rfl
  exact absurd h (classify_static_elim ph _)

theorem parseTemplateF_brace (f : Nat) (rest buf : List Char) :
    parseTemplateF (f + 1) ('\x7b' :: rest) buf =
      match classifyPlaceholder (spanPlaceholder rest).ph with
      | some tok => (if buf.isEmpty then [] else [FormatToken.static buf])
          ++ tok :: parseTemplateF f (spanPlaceholder rest).rest []
      | none => (if buf.isEmpty then [] else [FormatToken.static buf])
          ++ parseTemplateF f (spanPlaceholder rest).rest
              (('\x7b' :: (spanPlaceholder rest).ph) ++ ['\x7d']) := rfl

theorem parseTemplateF_char (f : Nat) (c : Char) (rest buf : List Char)
    (hc : ¬ c = '\x7b') :
    parseTemplateF (f + 1) (c :: rest) buf = parseTemplateF f rest (buf ++ [c]) := by
  simp [parseTemplateF, hc]

theorem specStaticSpansF_brace (f : Nat) (rest : List Char) :
    specStaticSpansF (f + 1) ('\x7b' :: rest) =
      if (spanPlaceholder rest).found then
        (if (classifyPlaceholder (spanPlaceholder rest).ph).isSome then []
         else '\x7b' :: ((spanPlaceholder rest).ph ++ ['\x7d']))
          ++ specStaticSpansF f (spanPlaceholder rest).rest
      else '\x7b' :: rest := rfl

theorem specStaticSpansF_char (f : Nat) (c : Char) (rest : List Char)
    (hc : ¬ c = '\x7b') :
    specStaticSpansF (f + 1) (c :: rest) = c :: specStaticSpansF f rest := by
  simp [specStaticSpansF, hc]

theorem wellBracedF_brace (f : Nat) (rest : List Char) :
    wellBracedF (f + 1) ('\x7b' :: rest) =
      ((spanPlaceholder rest).found && wellBracedF f (spanPlaceholder rest).rest) := rfl

theorem wellBracedF_char (f : Nat) (c : Char) (rest : List Char)
    (hc : ¬ c = '\x7b') :
    wellBracedF (f + 1) (c :: rest) = wellBracedF f rest := by
  simp [wellBracedF, hc]

theorem c6Aux : ∀ (fuel : Nat) (cs : List Char) (buf : List Char),
    cs.length < fuel → wellBracedF fuel cs = true →
    staticConcat (parseTemplateF fuel cs buf) = buf ++ specStaticSpansF fuel cs := by
  intro fuel
  induction fuel with
  | zero => intro cs buf h _; exact absurd h (Nat.not_lt_zero _)
  | succ f ih =>
    intro cs buf hlen hwb
    cases cs with
    | nil => cases buf <;> rfl
    | cons c rest =>
      by_cases hc : c = '\x7b'
      · subst hc
        rw [wellBracedF_brace, Bool.and_eq_true] at hwb
        obtain ⟨hfound, hwbrest⟩ := hwb
        have hrlen : (spanPlaceholder rest).rest.length < f := by
          have h1 := spanPlaceholder_rest_length rest
          simp only [List.length_cons] at hlen
          omega
        rw [parseTemplateF_brace, specStaticSpansF_brace, if_pos hfound]
        cases hcl : classifyPlaceholder (spanPlaceholder rest).ph with
        | some tok =>
          dsimp only
          rw [Option.isSome_some, if_pos rfl]
          rw [staticConcat_flush, classify_not_static _ _ hcl,
            ih _ [] hrlen hwbrest]
        | none =>
          dsimp only
          rw [Option.isSome_none, if_neg (show ¬ ((false : Bool) = true) by simp)]
          rw [staticConcat_flush, ih _ _ hrlen hwbrest]
          simp
      · rw [parseTemplateF_char f c rest buf hc, specStaticSpansF_char f c rest hc]
        rw [wellBracedF_char f c rest hc] at hwb
        have hrlen : rest.length < f := by
          simp only [List.length_cons] at hlen
          omega
        rw [ih _ _ hrlen hwb]
        simp

/-- Claim C6 as stated is false: on the template `"\x7bfoo"` — an
unrecognized placeholder with no closing brace — the tokenizer re-emits
a closing brace that is not in the template, so the re-serialized static
text is `"\x7bfoo\x7d"` while the template's static span is `"\x7bfoo"`. -/
theorem claim_C6_counterexample :
    staticConcat (parse_template "\x7bfoo") = "\x7bfoo\x7d".data ∧
    specStaticSpans "\x7bfoo" = "\x7bfoo".data ∧
    staticConcat (parse_template "\x7bfoo") ≠ specStaticSpans "\x7bfoo" :=
  ⟨by decide, by decide, by decide⟩

/-- Claim C6 (amended): for every template in which each placeholder
opened by `\x7b` finds its closing `\x7d`, tokenizing and re-serializing
the static tokens in order reproduces exactly the template's static
spans — the text outside placeholders plus each unrecognized placeholder
verbatim with its braces. -/
theorem claim_C6 (s : String) (h : wellBraced s = true) :
    staticConcat (parse_template s) = specStaticSpans s := by
  unfold parse_template specStaticSpans
  unfold wellBraced at h
  simpa using c6Aux (s.data.length + 1) s.data [] (Nat.lt_succ_self _) h

/-- Witness for claim C6 at the default format template. -/
theorem claim_C6_witness :
    wellBraced defaultFormatTemplate = true ∧
    staticConcat (parse_template defaultFormatTemplate)
      = specStaticSpans defaultFormatTemplate :=
  ⟨by decide, claim_C6 defaultFormatTemplate (by decide)⟩

end Logust
